import Mathlib

/-!
Shallow embedding of `optuna/integration/mlflow.py` (the `MLflowCallback`
class): the callback that records one finished Optuna trial as one MLflow
run.  Python values are modelled by their identity (string or other object)
together with their `str()` text; Python dicts by insertion-ordered
association lists; the MLflow client by a trace of emitted events plus an
oracle saying which client calls raise.  `with mlflow.start_run(...)`
blocks are embedded structurally: the `endRun` event is appended on every
path that entered the block, succeeding or raising, mirroring the context
manager's `__exit__`.
-/

/-- A Python value as this adapter observes it: either a `str`, or any other
object carried together with its `str()` text (the only thing the adapter
ever computes from a non-string value). -/
inductive PyVal where
  | vStr : String → PyVal
  | vObj : String → PyVal
  deriving DecidableEq, Repr

/-- Python `str(v)`. -/
def PyVal.pyStr : PyVal → String
  | .vStr s => s
  | .vObj s => s

/-- Whether the value is a Python `str`. -/
def PyVal.isStr : PyVal → Bool
  | .vStr _ => true
  | .vObj _ => false

/-- A Python dict with string keys, as an insertion-ordered association
list.  Lookup takes the first match. -/
def dget (d : List (String × PyVal)) (k : String) : Option PyVal :=
  match d with
  | [] => none
  | (k0, v0) :: t => if k0 = k then some v0 else dget t k

/-- `d[k] = v`: replace the value at the first occurrence of `k`, keeping
its position, or append `(k, v)` when `k` is absent — Python dict item
assignment. -/
def dsetKey (d : List (String × PyVal)) (k : String) (v : PyVal) :
    List (String × PyVal) :=
  match d with
  | [] => [(k, v)]
  | (k0, v0) :: t => if k0 = k then (k0, v) :: t else (k0, v0) :: dsetKey t k v

/-- `d.update(o)`: item assignment for each entry of `o`, in order. -/
def dupdate (d o : List (String × PyVal)) : List (String × PyVal) :=
  o.foldl (fun acc kv => dsetKey acc kv.1 kv.2) d

/-- Python `str.split(sep)` for a one-character separator, on the character
list: splits at every occurrence, keeping empty pieces (`"".split(".")`
is `[""]`). -/
def splitOnChar (sep : Char) : List Char → List (List Char)
  | [] => [[]]
  | c :: t =>
      match splitOnChar sep t with
      | [] => if c = sep then [[], []] else [[c]]
      | h :: r => if c = sep then [] :: h :: r else (c :: h) :: r

/-- `str(x).split(".")[-1]`: the piece after the last dot. -/
def stripQualifier (s : String) : String :=
  String.mk ((splitOnChar '.' s.data).getLastD [])

/-- Modelled from the spec: the trial's terminal state
(completed/failed/pruned/running), an enum of `optuna.trial` whose source
is not part of this tree. -/
inductive TrialState where
  | RUNNING | COMPLETE | PRUNED | FAIL
  deriving DecidableEq, Repr

/-- Modelled from the spec: the finished variants are every state but
running. -/
def TrialState.is_finished : TrialState → Bool
  | .RUNNING => false
  | _ => true

/-- Python `str` of the state enum member, qualifier prefix included. -/
def TrialState.pyStr : TrialState → String
  | .RUNNING => "TrialState.RUNNING"
  | .COMPLETE => "TrialState.COMPLETE"
  | .PRUNED => "TrialState.PRUNED"
  | .FAIL => "TrialState.FAIL"

/-- Modelled from the spec: the study's optimization direction
(minimize/maximize), an enum of `optuna._study_direction` whose source is
not part of this tree. -/
inductive StudyDirection where
  | NOT_SET | MINIMIZE | MAXIMIZE
  deriving DecidableEq, Repr

/-- Python `str` of the direction enum member, qualifier prefix included. -/
def StudyDirection.pyStr : StudyDirection → String
  | .NOT_SET => "StudyDirection.NOT_SET"
  | .MINIMIZE => "StudyDirection.MINIMIZE"
  | .MAXIMIZE => "StudyDirection.MAXIMIZE"

/-- The value found in `trial.state`: either a genuine `TrialState` or some
other object (the code guards with `isinstance`). -/
inductive StateVal where
  | ofState : TrialState → StateVal
  | other : PyVal → StateVal
  deriving DecidableEq, Repr

/-- The value found in `study.direction`: either a genuine `StudyDirection`
or some other object (the code guards with `isinstance`). -/
inductive DirectionVal where
  | ofDir : StudyDirection → DirectionVal
  | other : PyVal → DirectionVal
  deriving DecidableEq, Repr

/-- `optuna.study.Study` as the callback reads it. -/
structure Study where
  study_name : String
  direction : DirectionVal
  user_attrs : List (String × PyVal)
  deriving DecidableEq, Repr

/-- `optuna.trial.FrozenTrial` as the callback reads it.  The result value
is an optional number (rationals stand in for Python floats; only identity
matters here, no float arithmetic is performed). -/
structure FrozenTrial where
  number : Nat
  value : Option Rat
  datetime_start : PyVal
  datetime_complete : PyVal
  state : StateVal
  params : List (String × PyVal)
  distributions : List (String × PyVal)
  user_attrs : List (String × PyVal)
  system_attrs : List (String × PyVal)
  deriving DecidableEq, Repr

/-- Modelled from the spec: a live `optuna.trial.Trial` as the decorator
wrapper uses it — its number, its study, and its writable system-attribute
mapping; `optuna.trial.Trial` itself is not part of this tree. -/
structure Trial where
  number : Nat
  study : Study
  system_attrs : List (String × PyVal)
  deriving DecidableEq, Repr

/-- Modelled from the spec: `trial.set_system_attr(key, value)` stores the
value in the trial's system-attribute mapping. -/
def Trial.set_system_attr (t : Trial) (k : String) (v : PyVal) : Trial :=
  { t with system_attrs := dsetKey t.system_attrs k v }

/-- A metric value passed to `mlflow.log_metric`: a number, or the
`float("nan")` sentinel. -/
inductive MetricVal where
  | num : Rat → MetricVal
  | nan : MetricVal
  deriving DecidableEq, Repr

/-- One call to the MLflow client, with its arguments.  `startRun` carries
the `run_id` argument (the stashed id, when given), the `run_name` and
the `nested` flag; `endRun` is the context manager's exit. -/
inductive MEvent where
  | setTrackingUri : String → MEvent
  | setExperiment : String → MEvent
  | startRun : Option PyVal → String → Bool → MEvent
  | logMetric : String → MetricVal → MEvent
  | logParams : List (String × PyVal) → MEvent
  | setTags : List (String × PyVal) → MEvent
  | endRun : MEvent
  deriving DecidableEq, Repr

/-- The MLflow client's observable behaviour: which calls raise, and the
identifier assigned to a freshly created run. -/
structure MlflowClient where
  ok : MEvent → Bool
  fresh_run_id : String

/-- `mlflow.utils.validation.MAX_TAG_VAL_LENGTH` (an MLflow constant,
modelled by its documented value). -/
def MAX_TAG_VAL_LENGTH : Nat := 5000

/-- Model of Python `textwrap.shorten text width`: its whitespace-collapsing
and word-boundary selection are elided; what is kept is the contract the
caller relies on — text that fits is returned as is, longer text is cut
and the `" [...]"` placeholder appended so that the result never exceeds
`width` (for `width ≥ 6`). -/
def textwrapShorten (s : String) (width : Nat) : String :=
  if s.length ≤ width then s
  else String.mk (s.data.take (width - 6) ++ [' ', '[', '.', '.', '.', ']'])

/-- `RUN_ID_ATTRIBUTE_KEY = "mlflow_run_id"` (mlflow.py line 19). -/
def RUN_ID_ATTRIBUTE_KEY : String := "mlflow_run_id"

/-- The constructor arguments of `MLflowCallback` (mlflow.py lines
127-140). -/
structure MLflowCallback where
  tracking_uri : Option String
  metric_name : String
  nest_trials : Bool
  tag_study_user_attrs : Bool
  deriving DecidableEq, Repr

namespace MLflowCallback

/-- Lines 210-224 of `_set_tags`: the base tag dict — trial number,
timestamps, then `state` (only when the value is a `TrialState` and is
finished) and `direction` (only when the value is a `StudyDirection`),
each as `str(x).split(".")[-1]`. -/
def baseTags (trial : FrozenTrial) (study : Study) : List (String × PyVal) :=
  let tags := dsetKey [] "number" (.vStr (toString trial.number))
  let tags := dsetKey tags "datetime_start" (.vStr trial.datetime_start.pyStr)
  let tags := dsetKey tags "datetime_complete" (.vStr trial.datetime_complete.pyStr)
  let tags :=
    match trial.state with
    | .ofState st =>
        if st.is_finished then
          dsetKey tags "state" (.vStr (stripQualifier st.pyStr))
        else tags
    | .other _ => tags
  match study.direction with
  | .ofDir d => dsetKey tags "direction" (.vStr (stripQualifier d.pyStr))
  | .other _ => tags

/-- Line 227: the `<param>_distribution` dict comprehension. -/
def distTags (trial : FrozenTrial) : List (String × PyVal) :=
  trial.distributions.map fun kv => (kv.1 ++ "_distribution", .vStr kv.2.pyStr)

/-- Lines 210-231 of `_set_tags`: base tags updated, in order, with the
trial's user attributes, the distribution tags, and — when the flag is
set — the study's user attributes. -/
def mergedTags (cb : MLflowCallback) (trial : FrozenTrial) (study : Study) :
    List (String × PyVal) :=
  let tags := baseTags trial study
  let tags := dupdate tags trial.user_attrs
  let tags := dupdate tags (distTags trial)
  if cb.tag_study_user_attrs then dupdate tags study.user_attrs else tags

/-- Lines 238-241: the per-entry truncation workaround.  The loop variable
is rebound to `str(value)` only locally; the dict entry is rewritten —
to the shortened string — only when the text exceeds the limit. -/
def truncVal (maxLen : Nat) (v : PyVal) : PyVal :=
  if v.pyStr.length > maxLen then .vStr (textwrapShorten v.pyStr maxLen) else v

/-- Lines 238-241 applied to the whole dict. -/
def truncateTags (maxLen : Nat) (d : List (String × PyVal)) :
    List (String × PyVal) :=
  d.map fun kv => (kv.1, truncVal maxLen kv.2)

/-- The dict `_set_tags` finally passes to `mlflow.set_tags` (line 244). -/
def finalTags (cb : MLflowCallback) (trial : FrozenTrial) (study : Study) :
    List (String × PyVal) :=
  truncateTags MAX_TAG_VAL_LENGTH (mergedTags cb trial study)

/-- Lines 246-253, `_log_metric`: the `mlflow.log_metric` call it issues —
the trial's value, or `float("nan")` when the trial has none. -/
def _log_metric (cb : MLflowCallback) (value : Option Rat) : MEvent :=
  .logMetric cb.metric_name (match value with | some v => .num v | none => .nan)

/-- Lines 188-201, `_initialize_experiment`: set the tracking URI when one
was given, then select the experiment named after the study.  Returns
whether it completed without the client raising, and the calls issued. -/
def _initialize_experiment (cb : MLflowCallback) (c : MlflowClient)
    (study : Study) : Bool × List MEvent :=
  match cb.tracking_uri with
  | some uri =>
      if c.ok (.setTrackingUri uri) then
        (c.ok (.setExperiment study.study_name),
          [.setTrackingUri uri, .setExperiment study.study_name])
      else (false, [.setTrackingUri uri])
  | none =>
      (c.ok (.setExperiment study.study_name), [.setExperiment study.study_name])

/-- Lines 142-159, `__call__` (the `record` operation): initialize the
experiment, open the run — passing the run id stashed in the trial's
system attributes, when there is one — and, inside the `with` block, log
the metric, the params and the tags.  The `endRun` exit runs on every path
that entered the block.  Returns whether the call completed without
raising, and the trace of client calls. -/
def call (cb : MLflowCallback) (c : MlflowClient) (study : Study)
    (trial : FrozenTrial) : Bool × List MEvent :=
  let init := _initialize_experiment cb c study
  if !init.1 then (false, init.2)
  else
    let startEv : MEvent :=
      .startRun (dget trial.system_attrs RUN_ID_ATTRIBUTE_KEY)
        (toString trial.number) cb.nest_trials
    if !(c.ok startEv) then (false, init.2 ++ [startEv])
    else
      let mEv := _log_metric cb trial.value
      let pEv : MEvent := .logParams trial.params
      let tEv : MEvent := .setTags (finalTags cb trial study)
      let body : Bool × List MEvent :=
        if !(c.ok mEv) then (false, [mEv])
        else if !(c.ok pEv) then (false, [mEv, pEv])
        else (c.ok tEv, [mEv, pEv, tEv])
      (body.1 && c.ok .endRun, init.2 ++ [startEv] ++ body.2 ++ [.endRun])

/-- Lines 174-184, the `wrapper` produced by `track_in_mlflow`: initialize
the experiment, open a fresh run (no run id passed), stash the opened
run's id on the trial's system attributes, then run the user objective
inside the `with` block; the `endRun` exit runs whether the objective
returns or raises.  Returns the wrapper's result (`none` for a raise), the
trial as the wrapper leaves it, and the trace of client calls. -/
def wrapper (cb : MLflowCallback) (c : MlflowClient) {α : Type}
    (func : Trial → Option α) (t : Trial) :
    Option α × Trial × List MEvent :=
  let init := _initialize_experiment cb c t.study
  if !init.1 then (none, t, init.2)
  else
    let startEv : MEvent := .startRun none (toString t.number) cb.nest_trials
    if !(c.ok startEv) then (none, t, init.2 ++ [startEv])
    else
      let t' := t.set_system_attr RUN_ID_ATTRIBUTE_KEY (.vStr c.fresh_run_id)
      let r := func t'
      (if c.ok .endRun then r else none, t', init.2 ++ [startEv, .endRun])

end MLflowCallback

/-- Whether an event is an `mlflow.start_run` call. -/
def isStartRunEv : MEvent → Bool
  | .startRun _ _ _ => true
  | _ => false

/-- Whether an event is the run closure performed by the context manager's
exit. -/
def isEndRunEv : MEvent → Bool
  | .endRun => true
  | _ => false

/-- Spec side, for the refinement in C3: the spec's override order read off
its own words — the base tags are the weakest source, then the trial's user
attributes, then the distribution tags, then (only under the study-tagging
flag) the study's user attributes, applied last and winning every key
conflict. -/
def tagPrecedenceSpec (cb : MLflowCallback) (trial : FrozenTrial)
    (study : Study) (k : String) : Option PyVal :=
  match if cb.tag_study_user_attrs then dget study.user_attrs k else none with
  | some v => some v
  | none =>
      match dget (MLflowCallback.distTags trial) k with
      | some v => some v
      | none =>
          match dget trial.user_attrs k with
          | some v => some v
          | none => dget (MLflowCallback.baseTags trial study) k

/-- A client that accepts every call. -/
def okClient : MlflowClient := ⟨fun _ => true, "run-0001"⟩

/-! ### Concrete example inputs used by witnesses and counterexamples -/

/-- A callback with default-like settings: no tracking URI, metric name
`"value"`, no nesting, no study-attr tagging. -/
def cbEx : MLflowCallback := ⟨none, "value", false, false⟩

/-- A callback with the study-tagging flag set. -/
def cbTagEx : MLflowCallback := ⟨none, "value", false, true⟩

/-- The study of the spec's end-to-end scenario: named `"s1"`, direction
minimize, no user attributes. -/
def study9 : Study := ⟨"s1", .ofDir .MINIMIZE, []⟩

/-- The trial of the spec's end-to-end scenario: number 3, value 4.0,
params `{"x": 1.5}`, one distribution, no stashed run id. -/
def trial9 : FrozenTrial :=
  ⟨3, some 4, .vObj "2024-01-01 10:00:00", .vObj "2024-01-01 10:05:00",
    .ofState .COMPLETE, [("x", .vObj "1.5")],
    [("x", .vObj "UniformDistribution(high=10.0, low=-10.0)")], [], []⟩

/-- A failed trial with no result value. -/
def trialNone : FrozenTrial :=
  ⟨1, none, .vObj "2024-01-01 10:00:00", .vObj "None", .ofState .FAIL,
    [], [], [], []⟩

/-- A trial carrying a short non-string user attribute (the integer 1,
modelled by its `str()` text). -/
def trialC4 : FrozenTrial :=
  ⟨0, some 1, .vObj "None", .vObj "None", .ofState .COMPLETE, [], [],
    [("a", .vObj "1")], []⟩

/-- A trial whose user attributes override the `"number"` key. -/
def trialC5 : FrozenTrial :=
  ⟨3, some 1, .vObj "None", .vObj "None", .ofState .COMPLETE, [], [],
    [("number", .vStr "7")], []⟩

/-- A 5001-character string, one over the tag-value limit. -/
def longStr : String := String.mk (List.replicate 5001 'a')

/-- A trial carrying a user attribute whose text exceeds the tag-value
limit. -/
def trialLong : FrozenTrial :=
  ⟨0, none, .vObj "None", .vObj "None", .ofState .COMPLETE, [], [],
    [("a", .vObj longStr)], []⟩

/-- A trial with a user attribute, a distribution and a same-key conflict
against the study attribute `"x_distribution"`. -/
def trialC3 : FrozenTrial :=
  ⟨2, some 1, .vObj "None", .vObj "None", .ofState .COMPLETE,
    [("x", .vObj "1.0")], [("x", .vObj "U(1,2)")], [("k", .vStr "u")], []⟩

/-- A study whose user attribute collides with the `x_distribution` tag. -/
def studyC3 : Study := ⟨"s2", .ofDir .MAXIMIZE, [("x_distribution", .vStr "sv")]⟩

/-- A live trial for the decorator scenario, with no stashed attributes. -/
def tEx : Trial := ⟨5, study9, []⟩

/-- A frozen trial whose system attributes carry the run id the wrapper
stashed for `tEx` under `okClient`. -/
def ftReuse : FrozenTrial :=
  ⟨5, some 2, .vObj "None", .vObj "None", .ofState .COMPLETE, [], [], [],
    [("mlflow_run_id", .vStr "run-0001")]⟩

/-! ### Dictionary lemmas -/

theorem dget_mem_keys (d : List (String × PyVal)) (k : String) (v : PyVal)
    (h : dget d k = some v) : k ∈ d.map Prod.fst := by
  induction d with
  | nil => simp [dget] at h
  | cons hd t ih =>
      simp only [dget] at h
      by_cases h0 : hd.1 = k
      · simp [h0]
      · simp only [h0, if_false] at h
        simp [ih h]

theorem dget_dsetKey_self (d : List (String × PyVal)) (k : String) (v : PyVal) :
    dget (dsetKey d k v) k = some v := by
  induction d with
  | nil => simp [dget, dsetKey]
  | cons hd t ih =>
      by_cases h : hd.1 = k
      · simp [dget, dsetKey, h]
      · simp [dget, dsetKey, h, ih]

theorem dget_dsetKey_ne (d : List (String × PyVal)) (k k' : String) (v : PyVal)
    (h : k ≠ k') : dget (dsetKey d k v) k' = dget d k' := by
  induction d with
  | nil => simp [dget, dsetKey, h]
  | cons hd t ih =>
      by_cases h0 : hd.1 = k
      · simp [dget, dsetKey, h0, h]
      · simp only [dsetKey, h0, if_false, dget]
        by_cases h1 : hd.1 = k'
        · simp [h1]
        · simp [h1, ih]

theorem dget_dupdate_none (d o : List (String × PyVal)) (k : String)
    (h : dget o k = none) : dget (dupdate d o) k = dget d k := by
  induction o generalizing d with
  | nil => simp [dupdate]
  | cons hd t ih =>
      simp only [dget] at h
      by_cases h0 : hd.1 = k
      · simp [h0] at h
      · simp only [h0, if_false] at h
        simpa only [dupdate, List.foldl_cons] using
          (ih (dsetKey d hd.1 hd.2) h).trans (dget_dsetKey_ne d hd.1 k hd.2 h0)

theorem dget_dupdate_some (d o : List (String × PyVal)) (k : String) (v : PyVal)
    (hnd : (o.map Prod.fst).Nodup) (h : dget o k = some v) :
    dget (dupdate d o) k = some v := by
  induction o generalizing d with
  | nil => simp [dget] at h
  | cons hd t ih =>
      simp only [List.map_cons, List.nodup_cons] at hnd
      simp only [dget] at h
      by_cases h0 : hd.1 = k
      · simp only [h0, if_true, Option.some.injEq] at h
        subst h
        have hk : dget t k = none := by
          cases hv : dget t k with
          | none => rfl
          | some w =>
              exact absurd (h0 ▸ dget_mem_keys t k w hv) hnd.1
        simpa only [dupdate, List.foldl_cons] using
          (dget_dupdate_none (dsetKey d hd.1 hd.2) t k hk).trans
            (h0 ▸ dget_dsetKey_self d hd.1 hd.2)
      · simp only [h0, if_false] at h
        simpa only [dupdate, List.foldl_cons] using ih (dsetKey d hd.1 hd.2) hnd.2 h

/-! ### Helper lemmas about the embedding -/

theorem init_fst_ok (cb : MLflowCallback) (c : MlflowClient) (study : Study)
    (hok : ∀ e, c.ok e = true) :
    (MLflowCallback._initialize_experiment cb c study).1 = true := by
  cases h : cb.tracking_uri <;>
    simp [MLflowCallback._initialize_experiment, h, hok]

theorem init_countP_start (cb : MLflowCallback) (c : MlflowClient) (study : Study) :
    (MLflowCallback._initialize_experiment cb c study).2.countP isStartRunEv = 0 := by
  cases h : cb.tracking_uri with
  | none => simp [MLflowCallback._initialize_experiment, h, isStartRunEv]
  | some uri =>
      by_cases h2 : c.ok (.setTrackingUri uri) = true <;>
        simp [MLflowCallback._initialize_experiment, h, h2, isStartRunEv]

theorem init_countP_end (cb : MLflowCallback) (c : MlflowClient) (study : Study) :
    (MLflowCallback._initialize_experiment cb c study).2.countP isEndRunEv = 0 := by
  cases h : cb.tracking_uri with
  | none => simp [MLflowCallback._initialize_experiment, h, isEndRunEv]
  | some uri =>
      by_cases h2 : c.ok (.setTrackingUri uri) = true <;>
        simp [MLflowCallback._initialize_experiment, h, h2, isEndRunEv]

theorem startRun_not_mem_init (cb : MLflowCallback) (c : MlflowClient) (study : Study)
    (rid : Option PyVal) (nm : String) (nest : Bool) :
    MEvent.startRun rid nm nest ∉ (MLflowCallback._initialize_experiment cb c study).2 := by
  cases h : cb.tracking_uri with
  | none => simp [MLflowCallback._initialize_experiment, h]
  | some uri =>
      by_cases h2 : c.ok (.setTrackingUri uri) = true <;>
        simp [MLflowCallback._initialize_experiment, h, h2]

/-- With a client that never raises, `record` runs to completion and its
trace is: experiment initialization, the run opening (carrying the stashed
run id, if any), the metric, the params, the tags, the run closure. -/
theorem call_ok_spec (cb : MLflowCallback) (c : MlflowClient) (study : Study)
    (trial : FrozenTrial) (hok : ∀ e, c.ok e = true) :
    MLflowCallback.call cb c study trial =
      (true,
        (MLflowCallback._initialize_experiment cb c study).2 ++
          [.startRun (dget trial.system_attrs RUN_ID_ATTRIBUTE_KEY)
              (toString trial.number) cb.nest_trials,
            MLflowCallback._log_metric cb trial.value,
            .logParams trial.params,
            .setTags (MLflowCallback.finalTags cb trial study),
            .endRun]) := by
  unfold MLflowCallback.call
  simp [init_fst_ok cb c study hok, hok]

/-- With a client that never raises, the wrapper stashes the fresh run id,
runs the objective on the stashed trial, and returns its result. -/
theorem wrapper_ok_spec (cb : MLflowCallback) (c : MlflowClient) {α : Type}
    (func : Trial → Option α) (t : Trial) (hok : ∀ e, c.ok e = true) :
    MLflowCallback.wrapper cb c func t =
      (func (t.set_system_attr RUN_ID_ATTRIBUTE_KEY (.vStr c.fresh_run_id)),
        t.set_system_attr RUN_ID_ATTRIBUTE_KEY (.vStr c.fresh_run_id),
        (MLflowCallback._initialize_experiment cb c t.study).2 ++
          [.startRun none (toString t.number) cb.nest_trials, .endRun]) := by
  unfold MLflowCallback.wrapper
  simp [init_fst_ok cb c t.study hok, hok]

theorem textwrapShorten_length_le (s : String) (w : Nat) (hw : 6 ≤ w) :
    (textwrapShorten s w).length ≤ w := by
  unfold textwrapShorten
  split
  · assumption
  · have ht : (s.data.take (w - 6)).length ≤ w - 6 := by
      simp [List.length_take]
    simp only [String.length, List.length_append, List.length_cons,
      List.length_nil]
    omega

theorem truncVal_pyStr_length_le (v : PyVal) :
    ((MLflowCallback.truncVal MAX_TAG_VAL_LENGTH v).pyStr).length ≤
      MAX_TAG_VAL_LENGTH := by
  unfold MLflowCallback.truncVal
  split
  · exact textwrapShorten_length_le _ _ (by decide)
  · omega

theorem truncVal_eq_of_le (v : PyVal)
    (h : v.pyStr.length ≤ MAX_TAG_VAL_LENGTH) :
    MLflowCallback.truncVal MAX_TAG_VAL_LENGTH v = v := by
  unfold MLflowCallback.truncVal
  split
  · omega
  · rfl

theorem truncVal_isStr_of_gt (v : PyVal)
    (h : MAX_TAG_VAL_LENGTH < v.pyStr.length) :
    ∃ s : String, MLflowCallback.truncVal MAX_TAG_VAL_LENGTH v = .vStr s := by
  unfold MLflowCallback.truncVal
  split
  · exact ⟨_, rfl⟩
  · omega

theorem dget_finalTags (cb : MLflowCallback) (trial : FrozenTrial) (study : Study)
    (k : String) :
    dget (MLflowCallback.finalTags cb trial study) k =
      (dget (MLflowCallback.mergedTags cb trial study) k).map
        (MLflowCallback.truncVal MAX_TAG_VAL_LENGTH) := by
  unfold MLflowCallback.finalTags
  generalize MLflowCallback.mergedTags cb trial study = d
  induction d with
  | nil => simp [MLflowCallback.truncateTags, dget]
  | cons hd t ih =>
      by_cases h : hd.1 = k <;>
        simp_all [MLflowCallback.truncateTags, dget, h]

theorem dget_baseTags_number (trial : FrozenTrial) (study : Study) :
    dget (MLflowCallback.baseTags trial study) "number" =
      some (.vStr (toString trial.number)) := by
  rcases trial with ⟨n, v, ds, dc, st, ps, dist, ua, sa⟩
  rcases st with st | sv <;> try cases st
  all_goals rcases study with ⟨nm, dir, sua⟩
  all_goals rcases dir with d | dv <;> try cases d
  all_goals rfl

theorem distTags_keys_nodup (trial : FrozenTrial)
    (h : (trial.distributions.map Prod.fst).Nodup) :
    ((MLflowCallback.distTags trial).map Prod.fst).Nodup := by
  unfold MLflowCallback.distTags
  have heq :
      (trial.distributions.map fun kv =>
          (kv.1 ++ "_distribution", PyVal.vStr kv.2.pyStr)).map Prod.fst =
        (trial.distributions.map Prod.fst).map fun s => s ++ "_distribution" := by
    simp [List.map_map]
  rw [heq]
  refine h.map ?_
  intro a b hab
  apply String.ext
  have hd := congrArg String.data hab
  rw [String.data_append, String.data_append] at hd
  exact List.append_cancel_right hd

/-- C3: in the tag mapping `record` builds, override precedence for equal
keys is, from weakest to strongest: the base tags (number, timestamps,
state, direction), then the trial's user attributes, then the
`<param>_distribution` tags, then — only when the study-tagging flag is
set — the study's user attributes, which are applied last and win every
key conflict: the lookup in the merged mapping coincides, at every key,
with the spec-side precedence chain `tagPrecedenceSpec`. -/
theorem mlflow_c3_tag_precedence (cb : MLflowCallback) (trial : FrozenTrial)
    (study : Study) (k : String)
    (hu : (trial.user_attrs.map Prod.fst).Nodup)
    (hd : (trial.distributions.map Prod.fst).Nodup)
    (hs : (study.user_attrs.map Prod.fst).Nodup) :
    dget (MLflowCallback.mergedTags cb trial study) k =
      tagPrecedenceSpec cb trial study k := by
  have hdk := distTags_keys_nodup trial hd
  unfold MLflowCallback.mergedTags tagPrecedenceSpec
  have inner :
      dget (dupdate (dupdate (MLflowCallback.baseTags trial study)
          trial.user_attrs) (MLflowCallback.distTags trial)) k =
        match dget (MLflowCallback.distTags trial) k with
        | some v => some v
        | none =>
            match dget trial.user_attrs k with
            | some v => some v
            | none => dget (MLflowCallback.baseTags trial study) k := by
    cases hdi : dget (MLflowCallback.distTags trial) k with
    | some v => simp [dget_dupdate_some _ _ _ _ hdk hdi]
    | none =>
        rw [dget_dupdate_none _ _ _ hdi]
        cases hua : dget trial.user_attrs k with
        | some v => simp [dget_dupdate_some _ _ _ _ hu hua]
        | none => simp [dget_dupdate_none _ _ _ hua]
  by_cases hflag : cb.tag_study_user_attrs
  · simp only [hflag, if_true]
    cases hsu : dget study.user_attrs k with
    | some v => simp [dget_dupdate_some _ _ _ _ hs hsu]
    | none => rw [dget_dupdate_none _ _ _ hsu, inner]
  · simp only [hflag, if_false]
    exact inner

theorem dget_distTags_number (trial : FrozenTrial) :
    dget (MLflowCallback.distTags trial) "number" = none := by
  unfold MLflowCallback.distTags
  induction trial.distributions with
  | nil => simp [dget]
  | cons hd t ih =>
      have hne : hd.1 ++ "_distribution" ≠ "number" := by
        intro h
        have h13 : ("_distribution" : String).length = 13 := by decide
        have h6 : ("number" : String).length = 6 := by decide
        have := congrArg String.length h
        rw [String.length_append, h13, h6] at this
        omega
      simp [dget, hne, ih]

theorem endRun_not_mem_init (cb : MLflowCallback) (c : MlflowClient) (study : Study) :
    MEvent.endRun ∉ (MLflowCallback._initialize_experiment cb c study).2 := by
  cases h : cb.tracking_uri with
  | none => simp [MLflowCallback._initialize_experiment, h]
  | some uri =>
      by_cases h2 : c.ok (.setTrackingUri uri) = true <;>
        simp [MLflowCallback._initialize_experiment, h, h2]

/-- Every execution of `record` produces a trace of one of three shapes:
initialization only (it raised before the run), initialization plus a
rejected run opening, or a fully scoped run — one opening, some body
events none of which opens or closes a run, and the closing exit. -/
theorem call_shape (cb : MLflowCallback) (c : MlflowClient) (study : Study)
    (trial : FrozenTrial) :
    (MLflowCallback.call cb c study trial).2 =
        (MLflowCallback._initialize_experiment cb c study).2
    ∨ ((MLflowCallback.call cb c study trial).2 =
          (MLflowCallback._initialize_experiment cb c study).2 ++
            [.startRun (dget trial.system_attrs RUN_ID_ATTRIBUTE_KEY)
              (toString trial.number) cb.nest_trials] ∧
        c.ok (.startRun (dget trial.system_attrs RUN_ID_ATTRIBUTE_KEY)
          (toString trial.number) cb.nest_trials) = false)
    ∨ (∃ mid : List MEvent,
        (MLflowCallback.call cb c study trial).2 =
          (MLflowCallback._initialize_experiment cb c study).2 ++
            [.startRun (dget trial.system_attrs RUN_ID_ATTRIBUTE_KEY)
              (toString trial.number) cb.nest_trials] ++ mid ++ [.endRun] ∧
        c.ok (.startRun (dget trial.system_attrs RUN_ID_ATTRIBUTE_KEY)
          (toString trial.number) cb.nest_trials) = true ∧
        mid.countP isStartRunEv = 0 ∧
        (∀ rid nm nest, MEvent.startRun rid nm nest ∉ mid) ∧
        MEvent.endRun ∉ mid) := by
  unfold MLflowCallback.call
  cases h1 : (MLflowCallback._initialize_experiment cb c study).1 with
  | false => left; simp [h1]
  | true =>
      cases h2 : c.ok (.startRun (dget trial.system_attrs RUN_ID_ATTRIBUTE_KEY)
          (toString trial.number) cb.nest_trials) with
      | false => right; left; simp [h1, h2]
      | true =>
          right; right
          cases h3 : c.ok (MLflowCallback._log_metric cb trial.value) with
          | false =>
              exact ⟨[MLflowCallback._log_metric cb trial.value],
                by simp [h1, h2, h3],
                rfl,
                by simp [isStartRunEv, MLflowCallback._log_metric],
                by simp [MLflowCallback._log_metric],
                by simp [MLflowCallback._log_metric]⟩
          | true =>
              cases h4 : c.ok (.logParams trial.params) with
              | false =>
                  exact ⟨[MLflowCallback._log_metric cb trial.value,
                      .logParams trial.params],
                    by simp [h1, h2, h3, h4],
                    rfl,
                    by simp [isStartRunEv, MLflowCallback._log_metric],
                    by simp [MLflowCallback._log_metric],
                    by simp [MLflowCallback._log_metric]⟩
              | true =>
                  exact ⟨[MLflowCallback._log_metric cb trial.value,
                      .logParams trial.params,
                      .setTags (MLflowCallback.finalTags cb trial study)],
                    by simp [h1, h2, h3, h4],
                    rfl,
                    by simp [isStartRunEv, MLflowCallback._log_metric],
                    by simp [MLflowCallback._log_metric],
                    by simp [MLflowCallback._log_metric]⟩

/-- Every execution of the decorator wrapper produces a trace of one of
three shapes: initialization only, initialization plus a rejected run
opening, or an opened run immediately scoped by its closing exit (the
objective emits no client events of its own in this model). -/
theorem wrapper_shape (cb : MLflowCallback) (c : MlflowClient) {α : Type}
    (func : Trial → Option α) (t : Trial) :
    (MLflowCallback.wrapper cb c func t).2.2 =
        (MLflowCallback._initialize_experiment cb c t.study).2
    ∨ ((MLflowCallback.wrapper cb c func t).2.2 =
          (MLflowCallback._initialize_experiment cb c t.study).2 ++
            [.startRun none (toString t.number) cb.nest_trials] ∧
        c.ok (.startRun none (toString t.number) cb.nest_trials) = false)
    ∨ ((MLflowCallback.wrapper cb c func t).2.2 =
          (MLflowCallback._initialize_experiment cb c t.study).2 ++
            [.startRun none (toString t.number) cb.nest_trials, .endRun] ∧
        c.ok (.startRun none (toString t.number) cb.nest_trials) = true) := by
  unfold MLflowCallback.wrapper
  cases h1 : (MLflowCallback._initialize_experiment cb c t.study).1 with
  | false => left; simp [h1]
  | true =>
      cases h2 : c.ok (.startRun none (toString t.number) cb.nest_trials) with
      | false => right; left; simp [h1, h2]
      | true => right; right; simp [h1, h2]

/-- C8: on every exit path of both entry points, the tracking run opened
for the trial is closed before control returns to the caller.  For every
client behaviour (so in particular when logging the metric, params or tags
raises) and every objective (which may raise): a run opening accepted by
the client occurs in `record`'s trace exactly when the closing exit
occurs, the closing exit — when present — is the last client call of the
trace, and the same holds for the decorator wrapper's trace. -/
theorem mlflow_c8_run_closed_on_every_exit (cb cb2 : MLflowCallback)
    (c c2 : MlflowClient) (study : Study) (trial : FrozenTrial) {α : Type}
    (func : Trial → Option α) (t : Trial) :
    ((∃ rid nm nest,
        MEvent.startRun rid nm nest ∈ (MLflowCallback.call cb c study trial).2 ∧
          c.ok (.startRun rid nm nest) = true) ↔
      MEvent.endRun ∈ (MLflowCallback.call cb c study trial).2)
    ∧ (MEvent.endRun ∈ (MLflowCallback.call cb c study trial).2 →
        (MLflowCallback.call cb c study trial).2.getLast? = some .endRun)
    ∧ ((∃ rid nm nest,
        MEvent.startRun rid nm nest ∈ (MLflowCallback.wrapper cb2 c2 func t).2.2 ∧
          c2.ok (.startRun rid nm nest) = true) ↔
      MEvent.endRun ∈ (MLflowCallback.wrapper cb2 c2 func t).2.2)
    ∧ (MEvent.endRun ∈ (MLflowCallback.wrapper cb2 c2 func t).2.2 →
        (MLflowCallback.wrapper cb2 c2 func t).2.2.getLast? = some .endRun) := by
  refine ⟨?_, ?_, ?_, ?_⟩
  · rcases call_shape cb c study trial with htr | ⟨htr, hko⟩ |
        ⟨mid, htr, hok, _, hnos, _⟩
    · constructor
      · rintro ⟨rid, nm, nest, hmem, _⟩
        rw [htr] at hmem
        exact absurd hmem (startRun_not_mem_init cb c study rid nm nest)
      · intro hmem
        rw [htr] at hmem
        exact absurd hmem (endRun_not_mem_init cb c study)
    · constructor
      · rintro ⟨rid, nm, nest, hmem, hco⟩
        rw [htr] at hmem
        rcases List.mem_append.1 hmem with h | h
        · exact absurd h (startRun_not_mem_init cb c study rid nm nest)
        · simp only [List.mem_singleton, MEvent.startRun.injEq] at h
          obtain ⟨e1, e2, e3⟩ := h
          subst e1; subst e2; subst e3
          rw [hco] at hko
          exact absurd hko (by simp)
      · intro hmem
        rw [htr] at hmem
        rcases List.mem_append.1 hmem with h | h
        · exact absurd h (endRun_not_mem_init cb c study)
        · simp at h
    · constructor
      · intro _
        rw [htr]
        simp
      · intro _
        exact ⟨dget trial.system_attrs RUN_ID_ATTRIBUTE_KEY,
          toString trial.number, cb.nest_trials, by rw [htr]; simp, hok⟩
  · rcases call_shape cb c study trial with htr | ⟨htr, _⟩ |
        ⟨mid, htr, _, _, _, _⟩
    · intro hmem
      rw [htr] at hmem
      exact absurd hmem (endRun_not_mem_init cb c study)
    · intro hmem
      rw [htr] at hmem
      rcases List.mem_append.1 hmem with h | h
      · exact absurd h (endRun_not_mem_init cb c study)
      · simp at h
    · intro _
      rw [htr]
      exact List.getLast?_concat _
  · rcases wrapper_shape cb2 c2 func t with htr | ⟨htr, hko⟩ | ⟨htr, hok⟩
    · constructor
      · rintro ⟨rid, nm, nest, hmem, _⟩
        rw [htr] at hmem
        exact absurd hmem (startRun_not_mem_init cb2 c2 t.study rid nm nest)
      · intro hmem
        rw [htr] at hmem
        exact absurd hmem (endRun_not_mem_init cb2 c2 t.study)
    · constructor
      · rintro ⟨rid, nm, nest, hmem, hco⟩
        rw [htr] at hmem
        rcases List.mem_append.1 hmem with h | h
        · exact absurd h (startRun_not_mem_init cb2 c2 t.study rid nm nest)
        · simp only [List.mem_singleton, MEvent.startRun.injEq] at h
          obtain ⟨e1, e2, e3⟩ := h
          subst e1; subst e2; subst e3
          rw [hco] at hko
          exact absurd hko (by simp)
      · intro hmem
        rw [htr] at hmem
        rcases List.mem_append.1 hmem with h | h
        · exact absurd h (endRun_not_mem_init cb2 c2 t.study)
        · simp at h
    · constructor
      · intro _
        rw [htr]
        simp
      · intro _
        exact ⟨none, toString t.number, cb2.nest_trials, by rw [htr]; simp, hok⟩
  · rcases wrapper_shape cb2 c2 func t with htr | ⟨htr, _⟩ | ⟨htr, _⟩
    · intro hmem
      rw [htr] at hmem
      exact absurd hmem (endRun_not_mem_init cb2 c2 t.study)
    · intro hmem
      rw [htr] at hmem
      rcases List.mem_append.1 hmem with h | h
      · exact absurd h (endRun_not_mem_init cb2 c2 t.study)
      · simp at h
    · intro _
      rw [htr]
      rw [show [MEvent.startRun none (toString t.number) cb2.nest_trials,
        MEvent.endRun] = [MEvent.startRun none (toString t.number)
          cb2.nest_trials] ++ [MEvent.endRun] from rfl, ← List.append_assoc]
      exact List.getLast?_concat _

/-- C2: one invocation of `record` issues at most one run opening, and
every run opening it issues carries exactly the run id stashed in the
trial's system attributes under the fixed key (so a stashed run is
reopened, never duplicated); the decorator wrapper stashes the id of the
run it opens onto the trial's system attributes before the user objective
executes — the objective receives the already-stashed trial — and a
subsequent `record` call on a trial carrying those system attributes opens
exactly that run. -/
theorem mlflow_c2_at_most_one_run (cb cb2 : MLflowCallback)
    (c c2 : MlflowClient) (study : Study) (trial : FrozenTrial) {α : Type}
    (func : Trial → Option α) (t : Trial) (hok : ∀ e, c.ok e = true) :
    ((MLflowCallback.call cb2 c2 study trial).2.countP isStartRunEv ≤ 1)
    ∧ (∀ rid nm nest,
        MEvent.startRun rid nm nest ∈ (MLflowCallback.call cb2 c2 study trial).2 →
          rid = dget trial.system_attrs RUN_ID_ATTRIBUTE_KEY)
    ∧ ((MLflowCallback.wrapper cb c func t).2.1 =
        t.set_system_attr RUN_ID_ATTRIBUTE_KEY (.vStr c.fresh_run_id))
    ∧ ((MLflowCallback.wrapper cb c func t).1 =
        func (t.set_system_attr RUN_ID_ATTRIBUTE_KEY (.vStr c.fresh_run_id)))
    ∧ (dget ((MLflowCallback.wrapper cb c func t).2.1).system_attrs
          RUN_ID_ATTRIBUTE_KEY = some (.vStr c.fresh_run_id))
    ∧ (∀ ft : FrozenTrial,
        ft.system_attrs = ((MLflowCallback.wrapper cb c func t).2.1).system_attrs →
        (∀ e, c2.ok e = true) →
          MEvent.startRun (some (.vStr c.fresh_run_id)) (toString ft.number)
            cb2.nest_trials ∈ (MLflowCallback.call cb2 c2 study ft).2) := by
  have hw := wrapper_ok_spec cb c func t hok
  refine ⟨?_, ?_, ?_, ?_, ?_, ?_⟩
  · rcases call_shape cb2 c2 study trial with htr | ⟨htr, _⟩ |
        ⟨mid, htr, _, hcnt, _, _⟩
    · rw [htr, init_countP_start]
      exact Nat.zero_le 1
    · rw [htr, List.countP_append, init_countP_start]
      simp [isStartRunEv]
    · rw [htr]
      simp [List.countP_append, init_countP_start, hcnt, isStartRunEv]
  · intro rid nm nest hmem
    rcases call_shape cb2 c2 study trial with htr | ⟨htr, _⟩ |
        ⟨mid, htr, _, _, hnos, _⟩
    · rw [htr] at hmem
      exact absurd hmem (startRun_not_mem_init cb2 c2 study rid nm nest)
    · rw [htr] at hmem
      rcases List.mem_append.1 hmem with h | h
      · exact absurd h (startRun_not_mem_init cb2 c2 study rid nm nest)
      · simp only [List.mem_singleton, MEvent.startRun.injEq] at h
        exact h.1
    · rw [htr] at hmem
      rcases List.mem_append.1 hmem with h | h
      · rcases List.mem_append.1 h with h2 | h2
        · rcases List.mem_append.1 h2 with h3 | h3
          · exact absurd h3 (startRun_not_mem_init cb2 c2 study rid nm nest)
          · simp only [List.mem_singleton, MEvent.startRun.injEq] at h3
            exact h3.1
        · exact absurd h2 (hnos rid nm nest)
      · simp at h
  · rw [hw]
  · rw [hw]
  · rw [hw]
    show dget (dsetKey t.system_attrs RUN_ID_ATTRIBUTE_KEY
      (.vStr c.fresh_run_id)) RUN_ID_ATTRIBUTE_KEY = _
    exact dget_dsetKey_self _ _ _
  · intro ft hft hok2
    rw [hw] at hft
    have hg : dget ft.system_attrs RUN_ID_ATTRIBUTE_KEY =
        some (.vStr c.fresh_run_id) := by
      rw [hft]
      exact dget_dsetKey_self _ _ _
    rw [call_ok_spec cb2 c2 study ft hok2, hg]
    simp

theorem okClient_ok : ∀ e, okClient.ok e = true := fun _ => rfl

/-- C1: for every trial, the metric `record` logs under the configured
metric name equals the trial's result value exactly when that value is a
number, equals the NaN sentinel when the trial has no result value, and no
error is raised for a missing result value (the call completes). -/
theorem mlflow_c1_metric_value_or_nan (cb : MLflowCallback) (c : MlflowClient)
    (study : Study) (trial : FrozenTrial) (hok : ∀ e, c.ok e = true) :
    (∀ x : Rat, trial.value = some x →
        MEvent.logMetric cb.metric_name (.num x) ∈
          (MLflowCallback.call cb c study trial).2)
    ∧ (trial.value = none →
        MEvent.logMetric cb.metric_name .nan ∈
          (MLflowCallback.call cb c study trial).2)
    ∧ (MLflowCallback.call cb c study trial).1 = true := by
  rw [call_ok_spec cb c study trial hok]
  refine ⟨?_, ?_, rfl⟩
  · intro x hx
    simp [MLflowCallback._log_metric, hx]
  · intro hx
    simp [MLflowCallback._log_metric, hx]

theorem mlflow_c1_witness :
    MEvent.logMetric "value" .nan ∈
        (MLflowCallback.call cbEx okClient study9 trialNone).2 ∧
      (MLflowCallback.call cbEx okClient study9 trialNone).1 = true :=
  ⟨(mlflow_c1_metric_value_or_nan cbEx okClient study9 trialNone okClient_ok).2.1
      rfl,
    (mlflow_c1_metric_value_or_nan cbEx okClient study9 trialNone okClient_ok).2.2⟩

theorem mlflow_c2_witness :
    dget ((MLflowCallback.wrapper cbEx okClient
          (fun _ => some (7 : Nat)) tEx).2.1).system_attrs
        RUN_ID_ATTRIBUTE_KEY = some (.vStr "run-0001") ∧
      MEvent.startRun (some (.vStr "run-0001")) "5" false ∈
        (MLflowCallback.call cbEx okClient study9 ftReuse).2 :=
  ⟨(mlflow_c2_at_most_one_run cbEx cbEx okClient okClient study9 ftReuse
      (fun _ => some (7 : Nat)) tEx okClient_ok).2.2.2.2.1,
    (mlflow_c2_at_most_one_run cbEx cbEx okClient okClient study9 ftReuse
      (fun _ => some (7 : Nat)) tEx okClient_ok).2.2.2.2.2 ftReuse (by decide)
      okClient_ok⟩

theorem mlflow_c3_witness :
    dget (MLflowCallback.mergedTags cbTagEx trialC3 studyC3) "x_distribution" =
      tagPrecedenceSpec cbTagEx trialC3 studyC3 "x_distribution" :=
  mlflow_c3_tag_precedence cbTagEx trialC3 studyC3 "x_distribution"
    (by decide) (by decide) (by decide)

/-- C4 counterexample: with a trial carrying the user attribute
`a = 1` (a non-string whose text fits the limit), the mapping finally
passed to `set_tags` still holds a non-string value — not every value in
it is text. -/
theorem mlflow_c4_counterexample :
    ((MLflowCallback.finalTags cbEx trialC4 study9).all
      fun kv => kv.2.isStr) = false := by decide

/-- C4 (amended): every tag value whose textual form exceeds the backend's
maximum tag length is replaced, before `set_tags`, by text (a string);
a value whose textual form is within the limit is passed through unchanged
— so it reaches `set_tags` as text only when it already was a string. -/
theorem mlflow_c4_amended_text_coercion (cb : MLflowCallback)
    (trial : FrozenTrial) (study : Study) (k : String) :
    (∀ v, dget (MLflowCallback.mergedTags cb trial study) k = some v →
        MAX_TAG_VAL_LENGTH < v.pyStr.length →
        ∃ s : String,
          dget (MLflowCallback.finalTags cb trial study) k = some (.vStr s))
    ∧ (∀ v, dget (MLflowCallback.mergedTags cb trial study) k = some v →
        v.pyStr.length ≤ MAX_TAG_VAL_LENGTH →
        dget (MLflowCallback.finalTags cb trial study) k = some v) := by
  constructor
  · intro v hv hgt
    obtain ⟨s, hs⟩ := truncVal_isStr_of_gt v hgt
    exact ⟨s, by rw [dget_finalTags, hv]; simp [hs]⟩
  · intro v hv hle
    rw [dget_finalTags, hv]
    simp [truncVal_eq_of_le v hle]

theorem mlflow_c4_witness :
    ∃ s : String,
      dget (MLflowCallback.finalTags cbEx trialLong study9) "a" =
        some (.vStr s) := by
  apply (mlflow_c4_amended_text_coercion cbEx trialLong study9 "a").1
    (.vObj longStr)
  · show dget (MLflowCallback.mergedTags cbEx trialLong study9) "a" = _
    unfold MLflowCallback.mergedTags
    rw [show cbEx.tag_study_user_attrs = false from rfl]
    simp only [Bool.false_eq_true, if_false]
    rw [show MLflowCallback.distTags trialLong = [] from rfl]
    show dget (dupdate (MLflowCallback.baseTags trialLong study9)
      trialLong.user_attrs) "a" = _
    have hnd : (([("a", PyVal.vObj longStr)]).map Prod.fst).Nodup := by simp
    exact dget_dupdate_some _ _ _ _ hnd rfl
  · show MAX_TAG_VAL_LENGTH < longStr.length
    have h : longStr.length = 5001 := by
      unfold longStr
      rw [String.length_mk, List.length_replicate]
    rw [h]
    decide

/-- C5 counterexample: for a trial numbered 3 whose user attributes contain
the key `"number"` (value `"7"`), the tag mapping written by `record` does
not map `"number"` to `str(trial.number)`. -/
theorem mlflow_c5_counterexample :
    dget (MLflowCallback.finalTags cbEx trialC5 study9) "number" ≠
      some (.vStr (toString trialC5.number)) := by decide

/-- C5 (amended): the tag mapping written by `record` always contains the
key `"number"`, and its value equals `str(trial.number)` provided neither
the trial's user attributes nor (when the study-tagging flag is set) the
study's user attributes carry a conflicting `"number"` key, and the
textual trial number fits the tag-length limit (as every realistic trial
number does). -/
theorem mlflow_c5_amended_number_tag (cb : MLflowCallback)
    (trial : FrozenTrial) (study : Study)
    (h1 : dget trial.user_attrs "number" = none)
    (h2 : cb.tag_study_user_attrs = true → dget study.user_attrs "number" = none)
    (h3 : (toString trial.number).length ≤ MAX_TAG_VAL_LENGTH) :
    dget (MLflowCallback.finalTags cb trial study) "number" =
      some (.vStr (toString trial.number)) := by
  have hm : dget (MLflowCallback.mergedTags cb trial study) "number" =
      some (.vStr (toString trial.number)) := by
    unfold MLflowCallback.mergedTags
    have hinner : dget (dupdate (dupdate (MLflowCallback.baseTags trial study)
        trial.user_attrs) (MLflowCallback.distTags trial)) "number" =
        some (.vStr (toString trial.number)) := by
      rw [dget_dupdate_none _ _ _ (dget_distTags_number trial),
        dget_dupdate_none _ _ _ h1]
      exact dget_baseTags_number trial study
    by_cases hf : cb.tag_study_user_attrs
    · simp only [hf, if_true]
      rw [dget_dupdate_none _ _ _ (h2 hf)]
      exact hinner
    · simp only [hf, if_false]
      exact hinner
  rw [dget_finalTags, hm]
  simp [truncVal_eq_of_le (.vStr (toString trial.number)) h3]

theorem mlflow_c5_witness :
    dget (MLflowCallback.finalTags cbEx trial9 study9) "number" =
      some (.vStr (toString trial9.number)) :=
  mlflow_c5_amended_number_tag cbEx trial9 study9 (by decide)
    (fun h => absurd h (by decide)) (by decide)

/-- C6: every value in the mapping `record` finally passes to `set_tags`
has textual length at most the backend's maximum tag-value length, and a
value whose textual length is within the limit is not truncated (it is
passed through unchanged). -/
theorem mlflow_c6_tag_value_truncation (cb : MLflowCallback)
    (trial : FrozenTrial) (study : Study) (k : String) :
    (∀ v', dget (MLflowCallback.finalTags cb trial study) k = some v' →
        v'.pyStr.length ≤ MAX_TAG_VAL_LENGTH)
    ∧ (∀ v, dget (MLflowCallback.mergedTags cb trial study) k = some v →
        v.pyStr.length ≤ MAX_TAG_VAL_LENGTH →
        dget (MLflowCallback.finalTags cb trial study) k = some v) := by
  constructor
  · intro v' hv'
    rw [dget_finalTags] at hv'
    cases hm : dget (MLflowCallback.mergedTags cb trial study) k with
    | none => rw [hm] at hv'; simp at hv'
    | some v =>
        rw [hm] at hv'
        have hv : v' = MLflowCallback.truncVal MAX_TAG_VAL_LENGTH v := by
          simpa using hv'.symm
        rw [hv]
        exact truncVal_pyStr_length_le v
  · intro v hv hle
    rw [dget_finalTags, hv]
    simp [truncVal_eq_of_le v hle]

theorem mlflow_c6_witness :
    dget (MLflowCallback.finalTags cbEx trial9 study9) "number" =
      some (.vStr "3") :=
  (mlflow_c6_tag_value_truncation cbEx trial9 study9 "number").2
    (.vStr "3") (by decide) (by decide)

/-- C7: in the tags `record` builds, the `"state"` entry is present if and
only if the trial's state is a genuine `TrialState` in a finished variant,
and the `"direction"` entry is present if and only if the study's
direction is a genuine `StudyDirection`; the written value is the member's
text with the enclosing type-qualifier prefix stripped, and a value of an
unexpected kind silently yields no entry (no error). -/
theorem mlflow_c7_state_direction_tags (trial : FrozenTrial) (study : Study) :
    (dget (MLflowCallback.baseTags trial study) "state" =
      match trial.state with
      | .ofState st =>
          if st.is_finished then some (.vStr (stripQualifier st.pyStr)) else none
      | .other _ => none)
    ∧ (dget (MLflowCallback.baseTags trial study) "direction" =
      match study.direction with
      | .ofDir d => some (.vStr (stripQualifier d.pyStr))
      | .other _ => none)
    ∧ stripQualifier TrialState.COMPLETE.pyStr = "COMPLETE"
    ∧ stripQualifier TrialState.PRUNED.pyStr = "PRUNED"
    ∧ stripQualifier TrialState.FAIL.pyStr = "FAIL"
    ∧ stripQualifier StudyDirection.NOT_SET.pyStr = "NOT_SET"
    ∧ stripQualifier StudyDirection.MINIMIZE.pyStr = "MINIMIZE"
    ∧ stripQualifier StudyDirection.MAXIMIZE.pyStr = "MAXIMIZE" := by
  refine ⟨?_, ?_, by decide, by decide, by decide, by decide, by decide,
    by decide⟩
  · rcases trial with ⟨n, v, ds, dc, st, ps, dist, ua, sa⟩
    rcases st with st | sv <;> try cases st
    all_goals rcases study with ⟨nm, dir, sua⟩
    all_goals rcases dir with d | dv <;> try cases d
    all_goals rfl
  · rcases trial with ⟨n, v, ds, dc, st, ps, dist, ua, sa⟩
    rcases st with st | sv <;> try cases st
    all_goals rcases study with ⟨nm, dir, sua⟩
    all_goals rcases dir with d | dv <;> try cases d
    all_goals rfl

/-- C9: on the spec's end-to-end input — study `"s1"`, direction minimize,
trial number 3, value 4.0, params `{"x": 1.5}`, no stashed run id —
`record` selects experiment `"s1"`, opens a new run named `"3"`, logs the
metric 4.0 under the configured name, logs param `x = 1.5`, sets tags
including `number = "3"` and `direction = "MINIMIZE"`, closes the run, and
completes without error. -/
theorem mlflow_c9_end_to_end :
    MLflowCallback.call cbEx okClient study9 trial9 =
      (true,
        [.setExperiment "s1",
          .startRun none "3" false,
          .logMetric "value" (.num 4),
          .logParams [("x", .vObj "1.5")],
          .setTags [("number", .vStr "3"),
            ("datetime_start", .vStr "2024-01-01 10:00:00"),
            ("datetime_complete", .vStr "2024-01-01 10:05:00"),
            ("state", .vStr "COMPLETE"),
            ("direction", .vStr "MINIMIZE"),
            ("x_distribution", .vStr "UniformDistribution(high=10.0, low=-10.0)")],
          .endRun]) := by decide

/-- C10: the decorator's wrapper returns exactly the value returned by the
wrapped objective function (applied to the trial carrying the stashed run
id), unchanged, for every objective and trial, whenever the tracking
client itself raises no error. -/
theorem mlflow_c10_wrapper_returns_objective_value (cb : MLflowCallback)
    (c : MlflowClient) {α : Type} (func : Trial → Option α) (t : Trial)
    (hok : ∀ e, c.ok e = true) :
    (MLflowCallback.wrapper cb c func t).1 =
      func (t.set_system_attr RUN_ID_ATTRIBUTE_KEY (.vStr c.fresh_run_id)) := by
  rw [wrapper_ok_spec cb c func t hok]

theorem mlflow_c10_witness :
    (MLflowCallback.wrapper cbEx okClient (fun _ => some (7 : Nat)) tEx).1 =
      some 7 :=
  mlflow_c10_wrapper_returns_objective_value cbEx okClient
    (fun _ => some (7 : Nat)) tEx okClient_ok

theorem mlflow_c8_witness :
    MEvent.endRun ∈ (MLflowCallback.call cbEx okClient study9 trial9).2 :=
  (mlflow_c8_run_closed_on_every_exit cbEx cbEx okClient okClient study9
      trial9 (fun _ => some (7 : Nat)) tEx).1.1
    ⟨none, "3", false, by decide, rfl⟩
